import Mathlib

/-!
# Store Manager backend — shallow embedding and verification

This file embeds the data layer of the store-manager application
(`store_manager_backend.py`) in Lean 4 and proves properties of it.

Modelling conventions:
* The SQLite database is a `Store` value: the `products`,
  `transactions` and `transaction_items` tables are lists of rows in
  insertion order; `AUTOINCREMENT` of `transaction_id` is the
  `nextTxnId` counter.
* Money columns (SQLite `REAL`) are modelled as exact integers
  (e.g. an amount in cents): every property verified here uses only
  the ordered-ring structure of the amounts — sums, products and
  comparisons with zero — never division or rounding, so the choice
  of exact carrier is immaterial, and floating-point representation
  error itself is outside the embedding.  `INTEGER` columns are
  `Int`; row ids are `Nat`.  `timestamp` columns are wall-clock
  values irrelevant to the verified claims and are omitted.
* Each Python function that mutates the database becomes a Lean
  function `Store → ... → Except StoreError Store`.  `conn.rollback()`
  followed by `raise` is modelled by returning `.error e`: an error
  result carries no store, so a failed call leaves the caller's store
  exactly as it was — the all-or-nothing transaction semantics.
* Python exception classes map to `StoreError` constructors by raise
  site.  A `ValueError` that is re-raised by a blanket
  `except Exception` handler as a `RuntimeError` ("Database error ...")
  is modelled as `.storageError inner`: the generic storage error
  wrapping the error the code first constructed.
* `str.strip()` / `str.upper()` are `pyStrip` / `pyUpper`, defined
  structurally over the character list (ASCII case mapping, the
  whitespace set of Python's `str.strip`).
-/

deriving instance DecidableEq for Except

namespace StoreManager

/-- Python's `str.upper()` (ASCII case mapping, applied per character). -/
def pyUpper (s : String) : String :=
  ⟨s.data.map Char.toUpper⟩

/-- The characters Python's `str.strip()` removes by default. -/
def isSpaceChar (c : Char) : Bool :=
  c == ' ' || c == '\t' || c == '\n' || c == '\r' || c == '\x0b' || c == '\x0c'

/-- Python's `str.strip()`: drop whitespace from both ends. -/
def pyStrip (s : String) : String :=
  ⟨((s.data.dropWhile isSpaceChar).reverse.dropWhile isSpaceChar).reverse⟩

/-- A row of the `products` table:
`products(sku TEXT PRIMARY KEY, name TEXT NOT NULL, price REAL CHECK(price >= 0), quantity INTEGER CHECK(quantity >= 0))`. -/
structure Product where
  sku : String
  name : String
  price : Int
  quantity : Int
deriving DecidableEq, Repr

/-- A row of the `transactions` table (timestamp omitted, see module comment):
`transactions(transaction_id INTEGER PRIMARY KEY AUTOINCREMENT, timestamp, total_amount REAL NOT NULL)`. -/
structure Txn where
  transaction_id : Nat
  total_amount : Int
deriving DecidableEq, Repr

/-- A row of the `transaction_items` table (the `item_id` autoincrement key is
represented by the position in the list):
`transaction_items(item_id, transaction_id, product_sku, quantity_sold, price_at_sale)`. -/
structure LineItem where
  transaction_id : Nat
  product_sku : String
  quantity_sold : Int
  price_at_sale : Int
deriving DecidableEq, Repr

/-- The whole database file. -/
structure Store where
  products : List Product
  transactions : List Txn
  items : List LineItem
  nextTxnId : Nat
deriving DecidableEq, Repr

/-- The errors the backend raises, one constructor per raise-site kind.
`ValueError`s are the specific constructors; a `RuntimeError` produced by a
blanket `except Exception` handler that re-wraps an inner error is
`storageError inner`. -/
inductive StoreError where
  | validationError
  | duplicateKeyError (sku : String)
  | notFoundError
  | refIntegrityError (sku : String)
  | insufficientStockError (sku : String)
  | storageError (inner : StoreError)
deriving DecidableEq, Repr

/-- `SELECT ... FROM products WHERE sku = ?` — SQLite TEXT comparison is
exact (binary collation), so this is an exact match on the stored sku.
Embeds `get_product_details`, which returns the row or `None`. -/
def get_product_details (st : Store) (sku : String) : Option Product :=
  st.products.find? (fun p => p.sku == sku)

/-- Whether a product row with exactly this sku exists. -/
def existsSku (ps : List Product) (sku : String) : Bool :=
  ps.any (fun p => p.sku == sku)

/-- Embeds `add_product(sku, name, price, quantity)`.
The emptiness test is Python's `if not sku or not name` on the RAW inputs,
before normalization; the row inserted carries `sku.strip().upper()` and
`name.strip()`.  A primary-key conflict (`sqlite3.IntegrityError`) is
re-raised as the duplicate-sku `ValueError`. -/
def add_product (st : Store) (sku name : String) (price quantity : Int) :
    Except StoreError Store :=
  if sku = "" ∨ name = "" then .error .validationError
  else if price < 0 ∨ quantity < 0 then .error .validationError
  else if existsSku st.products (pyUpper (pyStrip sku)) then .error (.duplicateKeyError sku)
  else .ok { st with
    products := st.products ++ [⟨pyUpper (pyStrip sku), pyStrip name, price, quantity⟩] }

/-- Embeds `remove_product(sku)`.
The not-found `ValueError` is raised inside the `try` block and caught by the
function's own `except Exception` handler, which re-raises it as a
`RuntimeError` ("Database error removing product: ...") — hence
`.storageError .notFoundError`.  A delete blocked by
`FOREIGN KEY ... ON DELETE RESTRICT` raises `sqlite3.IntegrityError`, caught
and re-raised as the referential-integrity `ValueError`. -/
def remove_product (st : Store) (sku : String) : Except StoreError Store :=
  if sku = "" then .error .validationError
  else
    match st.products.find? (fun p => p.sku == sku) with
    | none => .error (.storageError .notFoundError)
    | some _ =>
      if st.items.any (fun it => it.product_sku == sku) then
        .error (.refIntegrityError sku)
      else
        .ok { st with products := st.products.filter (fun p => p.sku != sku) }

/-- One entry of the `bill_items` argument of `process_sale`:
a `(sku, name, price_at_sale, quantity_sold)` tuple. -/
structure BillItem where
  sku : String
  name : String
  price_at_sale : Int
  quantity_sold : Int
deriving DecidableEq, Repr

/-- `current_total = sum(item[2] * item[3] for item in bill_items)`. -/
def billTotal (bill : List BillItem) : Int :=
  (bill.map (fun it => it.price_at_sale * it.quantity_sold)).sum

/-- `UPDATE products SET quantity = quantity - ? WHERE sku = ?`. -/
def decStock (ps : List Product) (sku : String) (q : Int) : List Product :=
  ps.map (fun p => if p.sku = sku then { p with quantity := p.quantity - q } else p)

/-- The per-item loop of `process_sale`: re-read the product's current stock,
fail with the insufficient-stock `ValueError` when the row is missing or
`current_stock[0] < quantity_sold`, otherwise insert the line item and
decrement the stock, then continue with the rest of the bill. -/
def sellItems (tid : Nat) : Store → List BillItem → Except StoreError Store
  | st, [] => .ok st
  | st, it :: rest =>
    match get_product_details st it.sku with
    | none => .error (.insufficientStockError it.sku)
    | some p =>
      if p.quantity < it.quantity_sold then .error (.insufficientStockError it.sku)
      else
        sellItems tid
          { st with
            items := st.items ++ [⟨tid, it.sku, it.quantity_sold, it.price_at_sale⟩],
            products := decStock st.products it.sku it.quantity_sold } rest

/-- Embeds `process_sale(bill_items)`.
An empty bill is rejected up front; otherwise the transaction row is
inserted with the precomputed total, the items are processed, and any
failure rolls the whole unit of work back (modelled by the `.error` result
discarding the intermediate store, so the pre-call store is unchanged). -/
def process_sale (st : Store) (bill : List BillItem) : Except StoreError (Store × Nat) :=
  if bill.isEmpty then .error .validationError
  else
    let tid := st.nextTxnId
    let st1 : Store :=
      { st with
        transactions := st.transactions ++ [⟨tid, billTotal bill⟩],
        nextTxnId := tid + 1 }
    match sellItems tid st1 bill with
    | .error e => .error e
    | .ok st2 => .ok (st2, tid)

/-- Embeds `get_transaction_details(transaction_id)`.
As in `remove_product`, the not-found `ValueError` raised inside the `try`
block is re-wrapped by the `except Exception` handler into a
`RuntimeError` — `.storageError .notFoundError`.  The item query is an inner
`JOIN products p ON ti.product_sku = p.sku`, returning
`(quantity_sold, current name, sku, price_at_sale)` tuples. -/
def get_transaction_details (st : Store) (tid : Nat) :
    Except StoreError (Txn × List (Int × String × String × Int)) :=
  match st.transactions.find? (fun t => t.transaction_id == tid) with
  | none => .error (.storageError .notFoundError)
  | some t =>
    .ok (t, (st.items.filter (fun it => it.transaction_id == tid)).filterMap
      (fun it => (get_product_details st it.product_sku).map
        (fun p => (it.quantity_sold, p.name, it.product_sku, it.price_at_sale))))

/-! ## Specification helpers

Quantities used to state the claims: the current stock of a sku, the total
quantity of a sku sold by a bill, the row the loop inserts, the
intermediate store after Step 1, and the invariants of the spec. -/

/-- Current stock of a sku: the quantity of the first matching product row,
`0` when no row matches (what the insufficient-stock message reports for a
missing product). -/
def stockOf (ps : List Product) (sku : String) : Int :=
  match ps.find? (fun p => p.sku == sku) with
  | some p => p.quantity
  | none => 0

/-- Total quantity of a sku sold by a bill (duplicate entries summed). -/
def soldQty (bill : List BillItem) (sku : String) : Int :=
  (bill.map (fun it => if it.sku = sku then it.quantity_sold else 0)).sum

/-- The line-item row the `process_sale` loop inserts for a bill entry. -/
def itemRow (tid : Nat) (it : BillItem) : LineItem :=
  ⟨tid, it.sku, it.quantity_sold, it.price_at_sale⟩

/-- The intermediate store of `process_sale` after Step 1 (the transaction row
is inserted, the id counter advanced, no item processed yet). -/
def saleInter (st : Store) (bill : List BillItem) : Store :=
  { st with
    transactions := st.transactions ++ [⟨st.nextTxnId, billTotal bill⟩],
    nextTxnId := st.nextTxnId + 1 }

/-- The spec's product-table invariant: every row has non-negative price and
non-negative quantity (the SQL `CHECK` constraints) and skus are pairwise
distinct (the `PRIMARY KEY`). -/
def goodProducts (ps : List Product) : Prop :=
  (∀ p ∈ ps, 0 ≤ p.price ∧ 0 ≤ p.quantity) ∧ (ps.map Product.sku).Nodup

instance (ps : List Product) : Decidable (goodProducts ps) := by
  unfold goodProducts
  infer_instance

/-- One mutating data-layer call: the three operations that write to the
store. -/
inductive Op where
  | add (sku name : String) (price quantity : Int)
  | remove (sku : String)
  | sale (bill : List BillItem)
deriving DecidableEq, Repr

/-- Run one mutating operation, keeping only the resulting store. -/
def applyOp (st : Store) : Op → Except StoreError Store
  | .add sku name price quantity => add_product st sku name price quantity
  | .remove sku => remove_product st sku
  | .sale bill => (process_sale st bill).map Prod.fst

/-- Referential integrity of the line-item table: every item's `product_sku`
has a product row.  `PRAGMA foreign_keys = ON` plus
`FOREIGN KEY(product_sku) REFERENCES products(sku)` keeps this true;
`applyOp_fk` below shows the three mutating operations preserve it, so it
holds in every reachable store. -/
def fkOk (st : Store) : Prop :=
  ∀ it ∈ st.items, existsSku st.products it.product_sku = true

instance (st : Store) : Decidable (fkOk st) := by
  unfold fkOk
  infer_instance

/-! ## Concrete example stores and bills (witness and counterexample inputs) -/

/-- A store with one product `SKU1` at stock 2. -/
def lowStockStore : Store := ⟨[⟨"SKU1", "Widget", 2, 2⟩], [], [], 1⟩

/-- One bill entry asking for 3 units of `SKU1`. -/
def bigBill : List BillItem := [⟨"SKU1", "Widget", 2, 3⟩]

/-- A store with two products at stocks 5 and 4. -/
def twoProductStore : Store :=
  ⟨[⟨"SKU1", "Widget", 2, 5⟩, ⟨"SKU2", "Gadget", 3, 4⟩], [], [], 1⟩

/-- A bill with a duplicated sku whose cumulative demand (3 + 2) equals the
stock of `SKU1`. -/
def dupBill : List BillItem :=
  [⟨"SKU1", "Widget", 2, 3⟩, ⟨"SKU2", "Gadget", 3, 1⟩, ⟨"SKU1", "Widget", 2, 2⟩]

/-- A store with one product `SKU1` at stock 5. -/
def stockedStore : Store := ⟨[⟨"SKU1", "Widget", 2, 5⟩], [], [], 1⟩

/-- One bill entry asking for 3 units of `SKU1`. -/
def okBill : List BillItem := [⟨"SKU1", "Widget", 2, 3⟩]

/-- The store `okBill` checkout produces from `stockedStore`. -/
def stockedStoreSold : Store :=
  ⟨[⟨"SKU1", "Widget", 2, 2⟩], [⟨1, 6⟩], [⟨1, "SKU1", 3, 2⟩], 2⟩

/-- A store reachable by `add_product " " "Ghost" 1 1` from an empty store:
the whitespace-only sku passes the raw emptiness check and is stored
trimmed to the empty string. -/
def ghostStore : Store := ⟨[⟨"", "Ghost", 1, 1⟩], [], [], 1⟩

/-- The store after additionally selling one unit of the empty-sku product:
a line item referencing sku `""` exists. -/
def ghostStoreSold : Store := ⟨[⟨"", "Ghost", 1, 0⟩], [⟨1, 1⟩], [⟨1, "", 1, 1⟩], 2⟩

/-- A store whose `SKU1` product is referenced by a line item of
transaction 1. -/
def referencedStore : Store :=
  ⟨[⟨"SKU1", "Widget", 2, 2⟩], [⟨1, 6⟩], [⟨1, "SKU1", 3, 2⟩], 2⟩

/-- A bill carrying a negative unit price and a zero quantity, which
`process_sale` accepts. -/
def badBill : List BillItem :=
  [⟨"SKU1", "Widget", -2, 1⟩, ⟨"SKU1", "Widget", 3, 0⟩]

/-- The store `badBill` checkout produces from `stockedStore`: a line item
with negative `price_at_sale`, one with zero `quantity_sold`, and a
transaction with negative `total_amount`. -/
def badBillStore : Store :=
  ⟨[⟨"SKU1", "Widget", 2, 4⟩], [⟨1, -2⟩], [⟨1, "SKU1", 1, -2⟩, ⟨1, "SKU1", 0, 3⟩], 2⟩

/-- The store `add_product " ab " " W " 2 3` produces from an empty store. -/
def abStore : Store := ⟨[⟨"AB", "W", 2, 3⟩], [], [], 1⟩

/-- A bill naming a sku (`"SKU9"`) that `stockedStore` does not carry. -/
def missingSkuBill : List BillItem :=
  [⟨"SKU1", "Widget", 2, 1⟩, ⟨"SKU9", "Gizmo", 4, 1⟩]

/-! ## Lemmas -/

@[simp] lemma soldQty_nil (sku : String) : soldQty [] sku = 0 := rfl

@[simp] lemma soldQty_cons (it : BillItem) (rest : List BillItem) (sku : String) :
    soldQty (it :: rest) sku =
      (if it.sku = sku then it.quantity_sold else 0) + soldQty rest sku := by
  simp [soldQty]

lemma soldQty_nonneg (bill : List BillItem) (sku : String)
    (h : ∀ it ∈ bill, 0 ≤ it.quantity_sold) : 0 ≤ soldQty bill sku := by
  induction bill with
  | nil => simp
  | cons it rest ih =>
    have h1 := h it (List.mem_cons_self it rest)
    have h2 : 0 ≤ soldQty rest sku := ih fun x hx => h x (List.mem_cons_of_mem it hx)
    simp only [soldQty_cons]
    split <;> omega

lemma decStock_cons (p : Product) (ps : List Product) (sku : String) (q : Int) :
    decStock (p :: ps) sku q =
      (if p.sku = sku then { p with quantity := p.quantity - q } else p) :: decStock ps sku q := by
  simp [decStock]

lemma stockOf_cons (p : Product) (ps : List Product) (s : String) :
    stockOf (p :: ps) s = if p.sku = s then p.quantity else stockOf ps s := by
  by_cases h : p.sku = s
  · rw [stockOf, List.find?_cons_of_pos _ (by simp [h]), if_pos h]
  · rw [stockOf, List.find?_cons_of_neg _ (by simp [h]), if_neg h]; rfl

lemma existsSku_cons (p : Product) (ps : List Product) (s : String) :
    existsSku (p :: ps) s = (p.sku == s || existsSku ps s) := by
  simp [existsSku]

lemma sku_decStock_head (p : Product) (sku : String) (q : Int) :
    (if p.sku = sku then { p with quantity := p.quantity - q } else p).sku = p.sku := by
  split <;> rfl

@[simp] lemma existsSku_decStock (ps : List Product) (sku : String) (q : Int) (s : String) :
    existsSku (decStock ps sku q) s = existsSku ps s := by
  induction ps with
  | nil => rfl
  | cons p ps ih =>
    rw [decStock_cons, existsSku_cons, existsSku_cons, sku_decStock_head, ih]

lemma stockOf_decStock_ne (ps : List Product) (sku : String) (q : Int) (s : String)
    (hne : s ≠ sku) : stockOf (decStock ps sku q) s = stockOf ps s := by
  induction ps with
  | nil => rfl
  | cons p ps ih =>
    rw [decStock_cons, stockOf_cons, stockOf_cons, sku_decStock_head]
    by_cases hps : p.sku = s
    · have hp : ¬p.sku = sku := fun h => hne (hps ▸ h ▸ rfl)
      rw [if_pos hps, if_pos hps, if_neg hp]
    · rw [if_neg hps, if_neg hps, ih]

lemma stockOf_decStock_self (ps : List Product) (sku : String) (q : Int)
    (h : existsSku ps sku = true) : stockOf (decStock ps sku q) sku = stockOf ps sku - q := by
  induction ps with
  | nil => simp [existsSku] at h
  | cons p ps ih =>
    rw [decStock_cons, stockOf_cons, stockOf_cons, sku_decStock_head]
    by_cases hp : p.sku = sku
    · rw [if_pos hp, if_pos hp, if_pos hp]
    · have h' : existsSku ps sku = true := by
        simpa [existsSku_cons, hp] using h
      rw [if_neg hp, if_neg hp, ih h']

/-- The two `decStock` stock lemmas packaged: requires the decremented sku to
exist (which the `process_sale` loop has just checked). -/
lemma stockOf_decStock (ps : List Product) (sku : String) (q : Int) (s : String)
    (h : existsSku ps sku = true) :
    stockOf (decStock ps sku q) s = stockOf ps s - (if s = sku then q else 0) := by
  by_cases hs : s = sku
  · subst hs; simp [stockOf_decStock_self ps s q h]
  · simp [stockOf_decStock_ne ps sku q s hs, hs]

lemma existsSku_true_iff (ps : List Product) (s : String) :
    existsSku ps s = true ↔ ∃ p ∈ ps, p.sku = s := by
  simp [existsSku]

lemma find?_eq_none_of_not_existsSku (ps : List Product) (s : String)
    (h : existsSku ps s = false) : ps.find? (fun p => p.sku == s) = none := by
  rw [List.find?_eq_none]
  intro p hp
  simp only [existsSku, List.any_eq_true, not_exists] at h
  have := List.any_eq_false.mp h p hp
  simpa using this

lemma stockOf_eq_quantity (ps : List Product) (s : String) (p : Product)
    (h : ps.find? (fun x => x.sku == s) = some p) : stockOf ps s = p.quantity := by
  simp [stockOf, h]

lemma exists_find?_of_existsSku (ps : List Product) (s : String)
    (h : existsSku ps s = true) : ∃ p, ps.find? (fun x => x.sku == s) = some p := by
  obtain ⟨x, hx, hxs⟩ := (existsSku_true_iff ps s).mp h
  have h2 : (ps.find? fun x => x.sku == s).isSome :=
    List.find?_isSome.mpr ⟨x, hx, by simpa using hxs⟩
  exact Option.isSome_iff_exists.mp h2

lemma existsSku_of_find? (ps : List Product) (s : String) (p : Product)
    (hf : ps.find? (fun x => x.sku == s) = some p) : existsSku ps s = true := by
  have hm := List.mem_of_find?_eq_some hf
  have hp := List.find?_some hf
  exact (existsSku_true_iff ps s).mpr ⟨p, hm, by simpa using hp⟩

/-- A successful run of the item loop appends exactly the bill's line items in
order and touches neither the transactions table nor the id counter. -/
lemma sellItems_ok_shape (tid : Nat) (bill : List BillItem) :
    ∀ st st', sellItems tid st bill = .ok st' →
      st'.items = st.items ++ bill.map (itemRow tid) ∧
      st'.transactions = st.transactions ∧
      st'.nextTxnId = st.nextTxnId := by
  induction bill with
  | nil =>
    intro st st' h
    obtain rfl : st = st' := by simpa [sellItems] using h
    simp
  | cons it rest ih =>
    intro st st' h
    cases hfind : get_product_details st it.sku with
    | none => simp only [sellItems, hfind] at h; exact Except.noConfusion h
    | some p =>
      by_cases hq : p.quantity < it.quantity_sold
      · simp only [sellItems, hfind, if_pos hq] at h
        exact Except.noConfusion h
      · simp only [sellItems, hfind, if_neg hq] at h
        obtain ⟨h1, h2, h3⟩ := ih _ _ h
        refine ⟨?_, by simpa using h2, by simpa using h3⟩
        simpa [itemRow, List.append_assoc] using h1

/-- When every bill entry names an existing product, quantities are
non-negative and per-sku cumulative demand is within current stock, the item
loop succeeds and each sku's stock drops by exactly its total sold
quantity. -/
lemma sellItems_ok_of_enough (tid : Nat) (bill : List BillItem) :
    ∀ st,
      (∀ it ∈ bill, existsSku st.products it.sku = true) →
      (∀ it ∈ bill, 0 ≤ it.quantity_sold) →
      (∀ it ∈ bill, soldQty bill it.sku ≤ stockOf st.products it.sku) →
      ∃ st', sellItems tid st bill = .ok st' ∧
        ∀ s, stockOf st'.products s = stockOf st.products s - soldQty bill s := by
  induction bill with
  | nil =>
    intro st _ _ _
    exact ⟨st, by simp [sellItems], fun s => by simp⟩
  | cons it rest ih =>
    intro st hex hnn hcum
    have hexit : existsSku st.products it.sku = true := hex it (List.mem_cons_self it rest)
    obtain ⟨p, hfind⟩ := exists_find?_of_existsSku _ _ hexit
    have hstock : stockOf st.products it.sku = p.quantity := stockOf_eq_quantity _ _ _ hfind
    have hrest_nn : 0 ≤ soldQty rest it.sku :=
      soldQty_nonneg rest it.sku fun x hx => hnn x (List.mem_cons_of_mem it hx)
    have hbound := hcum it (List.mem_cons_self it rest)
    rw [soldQty_cons, if_pos rfl, hstock] at hbound
    have hq : ¬p.quantity < it.quantity_sold := by omega
    set st1 : Store :=
      { st with
        items := st.items ++ [⟨tid, it.sku, it.quantity_sold, it.price_at_sale⟩],
        products := decStock st.products it.sku it.quantity_sold } with hst1
    have hprods1 : st1.products = decStock st.products it.sku it.quantity_sold := rfl
    have hstock1 : ∀ s, stockOf st1.products s =
        stockOf st.products s - (if s = it.sku then it.quantity_sold else 0) := by
      intro s
      rw [hprods1, stockOf_decStock _ _ _ _ hexit]
    obtain ⟨st', hok, hstock'⟩ := ih st1
      (fun x hx => by
        rw [hprods1, existsSku_decStock]
        exact hex x (List.mem_cons_of_mem it hx))
      (fun x hx => hnn x (List.mem_cons_of_mem it hx))
      (fun x hx => by
        have hc := hcum x (List.mem_cons_of_mem it hx)
        rw [soldQty_cons] at hc
        rw [hstock1 x.sku]
        by_cases hs : it.sku = x.sku
        · rw [if_pos hs] at hc
          rw [if_pos hs.symm]
          omega
        · rw [if_neg hs] at hc
          rw [if_neg fun hh => hs hh.symm]
          omega)
    have hfind' : get_product_details st it.sku = some p := hfind
    refine ⟨st', ?_, ?_⟩
    · simp only [sellItems, hfind', if_neg hq]
      rw [← hst1]
      exact hok
    · intro s
      rw [hstock' s, hstock1 s, soldQty_cons]
      by_cases hs : it.sku = s
      · rw [if_pos hs, if_pos hs.symm]; omega
      · rw [if_neg hs, if_neg fun hh => hs hh.symm]; omega

/-- When some bill entry asks for more than the stock the loop will re-read at
its turn (initial stock minus what the earlier entries of the bill already
decremented), the item loop fails with the insufficient-stock error. -/
lemma sellItems_insufficient (tid : Nat) (bill : List BillItem) :
    ∀ st,
      (∃ i : Fin bill.length,
        stockOf st.products (bill.get i).sku - soldQty (bill.take i) (bill.get i).sku
          < (bill.get i).quantity_sold) →
      ∃ s, sellItems tid st bill = .error (.insufficientStockError s) := by
  induction bill with
  | nil => intro st ⟨i, _⟩; exact absurd i.isLt (by simp)
  | cons it rest ih =>
    intro st ⟨i, hi⟩
    cases hfind : get_product_details st it.sku with
    | none => exact ⟨it.sku, by simp only [sellItems, hfind]⟩
    | some p =>
      by_cases hq : p.quantity < it.quantity_sold
      · exact ⟨it.sku, by simp only [sellItems, hfind, if_pos hq]⟩
      · have hexit : existsSku st.products it.sku = true := existsSku_of_find? _ _ _ hfind
        have hstock : stockOf st.products it.sku = p.quantity := stockOf_eq_quantity _ _ _ hfind
        set st1 : Store :=
          { st with
            items := st.items ++ [⟨tid, it.sku, it.quantity_sold, it.price_at_sale⟩],
            products := decStock st.products it.sku it.quantity_sold } with hst1
        have hstock1 : ∀ s, stockOf st1.products s =
            stockOf st.products s - (if s = it.sku then it.quantity_sold else 0) := by
          intro s
          rw [show st1.products = decStock st.products it.sku it.quantity_sold from rfl,
            stockOf_decStock _ _ _ _ hexit]
        obtain ⟨j, hj⟩ : ∃ j : Fin rest.length,
            stockOf st1.products (rest.get j).sku -
              soldQty (rest.take j) (rest.get j).sku < (rest.get j).quantity_sold := by
          rcases i with ⟨iv, hiv⟩
          cases iv with
          | zero =>
            exfalso
            simp only [List.get, List.take, soldQty_nil] at hi
            omega
          | succ j =>
            have hjlt : j < rest.length := Nat.lt_of_succ_lt_succ hiv
            refine ⟨⟨j, hjlt⟩, ?_⟩
            have hi' : stockOf st.products (rest.get ⟨j, hjlt⟩).sku -
                soldQty (it :: rest.take j) (rest.get ⟨j, hjlt⟩).sku <
                (rest.get ⟨j, hjlt⟩).quantity_sold := hi
            rw [soldQty_cons] at hi'
            show stockOf st1.products (rest.get ⟨j, hjlt⟩).sku -
              soldQty (rest.take j) (rest.get ⟨j, hjlt⟩).sku <
              (rest.get ⟨j, hjlt⟩).quantity_sold
            rw [hstock1]
            by_cases hs : it.sku = (rest.get ⟨j, hjlt⟩).sku
            · rw [if_pos hs] at hi'; rw [if_pos hs.symm]; omega
            · rw [if_neg hs] at hi'; rw [if_neg fun hh => hs hh.symm]; omega
        obtain ⟨s, hs⟩ := ih st1 ⟨j, hj⟩
        exact ⟨s, by simp only [sellItems, hfind, if_neg hq]; rw [← hst1]; exact hs⟩

/-- When some bill entry names a sku with no product row, the item loop fails
with the insufficient-stock error (the code treats a missing row as zero
stock, not as a distinct not-found case). -/
lemma sellItems_missing (tid : Nat) (bill : List BillItem) :
    ∀ st,
      (∃ it ∈ bill, existsSku st.products it.sku = false) →
      ∃ s, sellItems tid st bill = .error (.insufficientStockError s) := by
  induction bill with
  | nil => intro st ⟨_, hmem, _⟩; exact absurd hmem (List.not_mem_nil _)
  | cons it rest ih =>
    intro st ⟨w, hmem, hw⟩
    cases hfind : get_product_details st it.sku with
    | none => exact ⟨it.sku, by simp only [sellItems, hfind]⟩
    | some p =>
      by_cases hq : p.quantity < it.quantity_sold
      · exact ⟨it.sku, by simp only [sellItems, hfind, if_pos hq]⟩
      · have hexit : existsSku st.products it.sku = true := existsSku_of_find? _ _ _ hfind
        set st1 : Store :=
          { st with
            items := st.items ++ [⟨tid, it.sku, it.quantity_sold, it.price_at_sale⟩],
            products := decStock st.products it.sku it.quantity_sold } with hst1
        have hmem' : w ∈ rest := by
          rcases List.mem_cons.mp hmem with h | h
          · exfalso; rw [h] at hw; rw [hexit] at hw; exact Bool.noConfusion hw
          · exact h
        have hw1 : existsSku st1.products w.sku = false := by
          rw [show st1.products = decStock st.products it.sku it.quantity_sold from rfl,
            existsSku_decStock]
          exact hw
        obtain ⟨s, hs⟩ := ih st1 ⟨w, hmem', hw1⟩
        exact ⟨s, by simp only [sellItems, hfind, if_neg hq]; rw [← hst1]; exact hs⟩

lemma process_sale_eq_of_ne_nil (st : Store) (bill : List BillItem)
    (he : ¬bill.isEmpty = true) :
    process_sale st bill =
      (match sellItems st.nextTxnId (saleInter st bill) bill with
        | .error e => .error e
        | .ok st2 => .ok (st2, st.nextTxnId)) := by
  unfold process_sale
  rw [if_neg he]
  rfl

lemma process_sale_ok_elim (st : Store) (bill : List BillItem) (st' : Store) (tid : Nat)
    (h : process_sale st bill = .ok (st', tid)) :
    tid = st.nextTxnId ∧ sellItems st.nextTxnId (saleInter st bill) bill = .ok st' := by
  by_cases he : bill.isEmpty
  · unfold process_sale at h
    rw [if_pos he] at h
    exact Except.noConfusion h
  · rw [process_sale_eq_of_ne_nil st bill he] at h
    cases hsell : sellItems st.nextTxnId (saleInter st bill) bill with
    | error e => rw [hsell] at h; exact Except.noConfusion h
    | ok st2 =>
      rw [hsell] at h
      simp only [Except.ok.injEq, Prod.mk.injEq] at h
      exact ⟨h.2.symm, by rw [h.1]⟩

lemma map_sku_decStock (ps : List Product) (sku : String) (q : Int) :
    (decStock ps sku q).map Product.sku = ps.map Product.sku := by
  unfold decStock
  rw [List.map_map]
  exact List.map_congr_left fun p _ => sku_decStock_head p sku q

lemma eq_find?_of_nodup (ps : List Product) (s : String) (p p' : Product)
    (hnd : (ps.map Product.sku).Nodup)
    (hf : ps.find? (fun x => x.sku == s) = some p)
    (hm : p' ∈ ps) (hs : p'.sku = s) : p' = p := by
  induction ps with
  | nil => exact absurd hm (List.not_mem_nil _)
  | cons a t ih =>
    rw [List.map_cons, List.nodup_cons] at hnd
    by_cases ha : a.sku = s
    · rw [List.find?_cons_of_pos _ (by simp [ha])] at hf
      obtain rfl : a = p := by injection hf
      rcases List.mem_cons.mp hm with rfl | hmt
      · rfl
      · exact absurd (by rw [ha, ← hs]; exact List.mem_map_of_mem Product.sku hmt) hnd.1
    · rw [List.find?_cons_of_neg _ (by simp [ha])] at hf
      rcases List.mem_cons.mp hm with rfl | hmt
      · exact absurd hs ha
      · exact ih hnd.2 hf hmt

lemma mem_decStock (ps : List Product) (sku : String) (q : Int) (x : Product)
    (hx : x ∈ decStock ps sku q) :
    ∃ p ∈ ps, x = if p.sku = sku then { p with quantity := p.quantity - q } else p := by
  unfold decStock at hx
  obtain ⟨p, hp, rfl⟩ := List.mem_map.mp hx
  exact ⟨p, hp, rfl⟩

lemma goodProducts_decStock (ps : List Product) (sku : String) (q : Int) (p : Product)
    (hg : goodProducts ps) (hf : ps.find? (fun x => x.sku == sku) = some p)
    (hq : q ≤ p.quantity) : goodProducts (decStock ps sku q) := by
  constructor
  · intro x hx
    obtain ⟨p', hp', rfl⟩ := mem_decStock ps sku q x hx
    by_cases hs : p'.sku = sku
    · rw [if_pos hs]
      obtain rfl : p' = p := eq_find?_of_nodup ps sku p p' hg.2 hf hp' hs
      obtain ⟨hpr, hqt⟩ := hg.1 p' hp'
      exact ⟨hpr, by show (0 : Int) ≤ p'.quantity - q; omega⟩
    · rw [if_neg hs]
      exact hg.1 p' hp'
  · rw [map_sku_decStock]
    exact hg.2

lemma sellItems_good (tid : Nat) (bill : List BillItem) :
    ∀ st st', goodProducts st.products → sellItems tid st bill = .ok st' →
      goodProducts st'.products := by
  induction bill with
  | nil =>
    intro st st' hg h
    obtain rfl : st = st' := by simpa [sellItems] using h
    exact hg
  | cons it rest ih =>
    intro st st' hg h
    cases hfind : get_product_details st it.sku with
    | none => simp only [sellItems, hfind] at h; exact Except.noConfusion h
    | some p =>
      by_cases hqlt : p.quantity < it.quantity_sold
      · simp only [sellItems, hfind, if_pos hqlt] at h
        exact Except.noConfusion h
      · simp only [sellItems, hfind, if_neg hqlt] at h
        refine ih _ _ ?_ h
        have hf' : st.products.find? (fun x => x.sku == it.sku) = some p := hfind
        exact goodProducts_decStock _ _ _ p hg hf' (by omega)

lemma add_product_ok_elim (st : Store) (sku name : String) (price quantity : Int) (st' : Store)
    (h : add_product st sku name price quantity = .ok st') :
    ¬(sku = "" ∨ name = "") ∧ ¬(price < 0 ∨ quantity < 0) ∧
      ¬existsSku st.products (pyUpper (pyStrip sku)) = true ∧
      st' = { st with
        products := st.products ++ [⟨pyUpper (pyStrip sku), pyStrip name, price, quantity⟩] } := by
  unfold add_product at h
  by_cases h1 : sku = "" ∨ name = ""
  · rw [if_pos h1] at h; exact Except.noConfusion h
  rw [if_neg h1] at h
  by_cases h2 : price < 0 ∨ quantity < 0
  · rw [if_pos h2] at h; exact Except.noConfusion h
  rw [if_neg h2] at h
  by_cases h3 : existsSku st.products (pyUpper (pyStrip sku)) = true
  · rw [if_pos h3] at h; exact Except.noConfusion h
  rw [if_neg h3] at h
  refine ⟨h1, h2, h3, ?_⟩
  injection h with h4
  exact h4.symm

lemma add_product_good (st : Store) (sku name : String) (price quantity : Int) (st' : Store)
    (hg : goodProducts st.products)
    (h : add_product st sku name price quantity = .ok st') : goodProducts st'.products := by
  obtain ⟨-, h2, h3, rfl⟩ := add_product_ok_elim st sku name price quantity st' h
  constructor
  · intro x hx
    rcases List.mem_append.mp hx with hold | hnew
    · exact hg.1 x hold
    · obtain rfl : x = ⟨pyUpper (pyStrip sku), pyStrip name, price, quantity⟩ := by
        simpa using hnew
      exact ⟨by show (0 : Int) ≤ price; omega, by show (0 : Int) ≤ quantity; omega⟩
  · show ((st.products ++
      [(⟨pyUpper (pyStrip sku), pyStrip name, price, quantity⟩ : Product)]).map Product.sku).Nodup
    rw [List.map_append, List.map_cons, List.map_nil, List.nodup_append]
    refine ⟨hg.2, List.nodup_singleton _, ?_⟩
    intro a ha hb
    obtain rfl : a = pyUpper (pyStrip sku) := by simpa using hb
    obtain ⟨p, hp, hps⟩ := List.mem_map.mp ha
    exact h3 ((existsSku_true_iff _ _).mpr ⟨p, hp, hps⟩)

lemma remove_product_ok_elim (st : Store) (sku : String) (st' : Store)
    (h : remove_product st sku = .ok st') :
    ¬sku = "" ∧ (∃ p, st.products.find? (fun p => p.sku == sku) = some p) ∧
      ¬(st.items.any fun it => it.product_sku == sku) = true ∧
      st' = { st with products := st.products.filter (fun p => p.sku != sku) } := by
  unfold remove_product at h
  by_cases h1 : sku = ""
  · rw [if_pos h1] at h; exact Except.noConfusion h
  rw [if_neg h1] at h
  cases hfind : st.products.find? (fun p => p.sku == sku) with
  | none => rw [hfind] at h; exact Except.noConfusion h
  | some p =>
    rw [hfind] at h
    have h' : (if (st.items.any fun it => it.product_sku == sku) = true then
        (.error (.refIntegrityError sku) : Except StoreError Store)
      else .ok { st with products := st.products.filter (fun p => p.sku != sku) }) = .ok st' := h
    by_cases h2 : (st.items.any fun it => it.product_sku == sku) = true
    · rw [if_pos h2] at h'; exact Except.noConfusion h'
    · rw [if_neg h2] at h'
      injection h' with h4
      exact ⟨h1, ⟨p, rfl⟩, h2, h4.symm⟩

lemma remove_product_good (st : Store) (sku : String) (st' : Store)
    (hg : goodProducts st.products)
    (h : remove_product st sku = .ok st') : goodProducts st'.products := by
  obtain ⟨-, -, -, rfl⟩ := remove_product_ok_elim st sku st' h
  exact ⟨fun x hx => hg.1 x (List.mem_of_mem_filter hx),
    hg.2.sublist ((List.filter_sublist _).map Product.sku)⟩

lemma process_sale_good (st : Store) (bill : List BillItem) (st' : Store) (tid : Nat)
    (hg : goodProducts st.products)
    (h : process_sale st bill = .ok (st', tid)) : goodProducts st'.products := by
  obtain ⟨-, hsell⟩ := process_sale_ok_elim st bill st' tid h
  exact sellItems_good st.nextTxnId bill (saleInter st bill) st' hg hsell

lemma applyOp_sale_elim (st : Store) (bill : List BillItem) (st' : Store)
    (h : applyOp st (.sale bill) = .ok st') :
    process_sale st bill = .ok (st', st.nextTxnId) := by
  have h' : (process_sale st bill).map Prod.fst = .ok st' := h
  cases hps : process_sale st bill with
  | error e => rw [hps] at h'; exact Except.noConfusion h'
  | ok r =>
    obtain ⟨st2, tid2⟩ := r
    rw [hps] at h'
    simp only [Except.map] at h'
    obtain rfl : st2 = st' := by injection h'
    obtain ⟨htid, -⟩ := process_sale_ok_elim st bill st2 tid2 hps
    rw [htid]

lemma existsSku_append (ps qs : List Product) (s : String) :
    existsSku (ps ++ qs) s = (existsSku ps s || existsSku qs s) := by
  simp [existsSku]

lemma sellItems_fk (tid : Nat) (bill : List BillItem) :
    ∀ st st', fkOk st → sellItems tid st bill = .ok st' → fkOk st' := by
  induction bill with
  | nil =>
    intro st st' hfk h
    obtain rfl : st = st' := by simpa [sellItems] using h
    exact hfk
  | cons it rest ih =>
    intro st st' hfk h
    cases hfind : get_product_details st it.sku with
    | none => simp only [sellItems, hfind] at h; exact Except.noConfusion h
    | some p =>
      by_cases hqlt : p.quantity < it.quantity_sold
      · simp only [sellItems, hfind, if_pos hqlt] at h
        exact Except.noConfusion h
      · simp only [sellItems, hfind, if_neg hqlt] at h
        refine ih _ _ ?_ h
        intro x hx
        show existsSku (decStock st.products it.sku it.quantity_sold) x.product_sku = true
        rw [existsSku_decStock]
        rcases List.mem_append.mp hx with hold | hnew
        · exact hfk x hold
        · obtain rfl : x = ⟨tid, it.sku, it.quantity_sold, it.price_at_sale⟩ := by
            simpa using hnew
          exact existsSku_of_find? _ _ p hfind

lemma applyOp_fk (st st' : Store) (op : Op) (hfk : fkOk st)
    (h : applyOp st op = .ok st') : fkOk st' := by
  cases op with
  | add sku name price quantity =>
    obtain ⟨-, -, -, rfl⟩ := add_product_ok_elim st sku name price quantity st' h
    intro it hit
    show existsSku (st.products ++
      [(⟨pyUpper (pyStrip sku), pyStrip name, price, quantity⟩ : Product)]) it.product_sku = true
    rw [existsSku_append]
    have := hfk it hit
    simp [this]
  | remove sku =>
    obtain ⟨-, -, h2, rfl⟩ := remove_product_ok_elim st sku st' h
    intro it hit
    have hne : ¬it.product_sku = sku := by
      intro hcontra
      exact h2 (List.any_eq_true.mpr ⟨it, hit, by simp [hcontra]⟩)
    obtain ⟨p, hp, hps⟩ := (existsSku_true_iff _ _).mp (hfk it hit)
    refine (existsSku_true_iff _ _).mpr ⟨p, ?_, hps⟩
    exact List.mem_filter.mpr ⟨hp, by simp [bne_iff_ne, hps, hne]⟩
  | sale bill =>
    have hps := applyOp_sale_elim st bill st' h
    obtain ⟨-, hsell⟩ := process_sale_ok_elim st bill st' st.nextTxnId hps
    exact sellItems_fk st.nextTxnId bill (saleInter st bill) st' hfk hsell

lemma find?_append_eq (l₁ l₂ : List Product) (f : Product → Bool)
    (h : l₁.find? f = none) : (l₁ ++ l₂).find? f = l₂.find? f := by
  induction l₁ with
  | nil => rfl
  | cons a t ih =>
    by_cases ha : f a = true
    · rw [List.find?_cons_of_pos _ ha] at h
      exact Option.noConfusion h
    · rw [List.find?_cons_of_neg _ ha] at h
      rw [List.cons_append, List.find?_cons_of_neg _ ha]
      exact ih h

lemma billTotal_nonneg (bill : List BillItem)
    (h : ∀ it ∈ bill, 0 ≤ it.price_at_sale ∧ 0 ≤ it.quantity_sold) :
    0 ≤ billTotal bill := by
  induction bill with
  | nil => simp [billTotal]
  | cons it rest ih =>
    have h1 := h it (List.mem_cons_self it rest)
    have h2 := ih fun x hx => h x (List.mem_cons_of_mem it hx)
    simp only [billTotal, List.map_cons, List.sum_cons] at h2 ⊢
    exact add_nonneg (mul_nonneg h1.1 h1.2) h2

/-! ## The claims -/

/-- C1: for every line-item sequence in which some item's `quantity_sold`
exceeds its product's stock at the moment the checkout loop re-reads it
(the initial stock minus the decrements the earlier bill entries already
applied), `process_sale` fails with the insufficient-stock error.  The
store is left exactly as before the call: in this embedding a rollback is
an `.error` result, which carries no store, so no quantity change, no
transaction row and no line-item row of the failed call survives. -/
theorem C1_insufficient_stock_fails_and_rolls_back (st : Store) (bill : List BillItem)
    (h : ∃ i : Fin bill.length,
      stockOf st.products (bill.get i).sku - soldQty (bill.take i) (bill.get i).sku
        < (bill.get i).quantity_sold) :
    ∃ s, process_sale st bill = .error (.insufficientStockError s) := by
  have hne : ¬bill.isEmpty = true := by
    obtain ⟨i, -⟩ := h
    cases bill with
    | nil => exact absurd i.isLt (by simp)
    | cons a l => simp
  obtain ⟨s, hs⟩ := sellItems_insufficient st.nextTxnId bill (saleInter st bill) h
  exact ⟨s, by rw [process_sale_eq_of_ne_nil st bill hne, hs]⟩

/-- C1 witness: stock 2, one item asking for 3. -/
theorem C1_witness :
    (∃ i : Fin bigBill.length,
      stockOf lowStockStore.products (bigBill.get i).sku -
        soldQty (bigBill.take i) (bigBill.get i).sku < (bigBill.get i).quantity_sold) ∧
    ∃ s, process_sale lowStockStore bigBill = .error (.insufficientStockError s) :=
  ⟨by decide, C1_insufficient_stock_fails_and_rolls_back lowStockStore bigBill (by decide)⟩

/-- C2: a non-empty bill whose every entry names an existing product, has a
positive quantity (line items are positive quantities per the data model),
and whose per-sku cumulative demand — duplicates summed, not merged — fits
the current stock, checks out successfully: the call returns the fresh
transaction id, appends exactly one transaction row whose `total_amount` is
`billTotal bill = Σ price_at_sale`·`quantity_sold` over the list as given,
and every sku's stock drops by exactly its total sold quantity. -/
theorem C2_valid_checkout_totals_and_decrements (st : Store) (bill : List BillItem)
    (hne : bill ≠ [])
    (hvalid : ∀ it ∈ bill, existsSku st.products it.sku = true ∧ 0 < it.quantity_sold ∧
      soldQty bill it.sku ≤ stockOf st.products it.sku) :
    ∃ st', process_sale st bill = .ok (st', st.nextTxnId) ∧
      st'.transactions = st.transactions ++ [⟨st.nextTxnId, billTotal bill⟩] ∧
      (∀ s, stockOf st'.products s = stockOf st.products s - soldQty bill s) := by
  have hne' : ¬bill.isEmpty = true := by simpa using hne
  obtain ⟨st', hok, hstock⟩ := sellItems_ok_of_enough st.nextTxnId bill (saleInter st bill)
    (fun it hit => (hvalid it hit).1)
    (fun it hit => le_of_lt (hvalid it hit).2.1)
    (fun it hit => (hvalid it hit).2.2)
  obtain ⟨-, htr, -⟩ := sellItems_ok_shape st.nextTxnId bill (saleInter st bill) st' hok
  refine ⟨st', ?_, ?_, fun s => hstock s⟩
  · rw [process_sale_eq_of_ne_nil st bill hne', hok]
  · rw [htr]; rfl

/-- C2 witness: duplicate skus with cumulative demand exactly the stock. -/
theorem C2_witness :
    dupBill ≠ [] ∧
    (∀ it ∈ dupBill, existsSku twoProductStore.products it.sku = true ∧
      0 < it.quantity_sold ∧
      soldQty dupBill it.sku ≤ stockOf twoProductStore.products it.sku) ∧
    ∃ st', process_sale twoProductStore dupBill = .ok (st', twoProductStore.nextTxnId) ∧
      st'.transactions = twoProductStore.transactions ++
        [⟨twoProductStore.nextTxnId, billTotal dupBill⟩] ∧
      (∀ s, stockOf st'.products s =
        stockOf twoProductStore.products s - soldQty dupBill s) :=
  ⟨by decide, by decide,
    C2_valid_checkout_totals_and_decrements twoProductStore dupBill (by decide) (by decide)⟩

/-- C3: the product-table invariant — price ≥ 0 and quantity ≥ 0 for every
row, skus pairwise distinct — is preserved by every mutating operation
(`add_product`, `remove_product`, `process_sale`); a failed operation
returns an error carrying no store, so the invariant holds after every
operation on every store satisfying it. -/
theorem C3_invariants_preserved (st st' : Store) (op : Op)
    (hg : goodProducts st.products) (h : applyOp st op = .ok st') :
    goodProducts st'.products := by
  cases op with
  | add sku name price quantity => exact add_product_good st sku name price quantity st' hg h
  | remove sku => exact remove_product_good st sku st' hg h
  | sale bill =>
    exact process_sale_good st bill st' st.nextTxnId hg (applyOp_sale_elim st bill st' h)

/-- C3 witness: a checkout step on a well-formed store. -/
theorem C3_witness :
    goodProducts stockedStore.products ∧
    applyOp stockedStore (.sale okBill) = .ok stockedStoreSold ∧
    goodProducts stockedStoreSold.products :=
  ⟨by decide, by decide,
    C3_invariants_preserved stockedStore stockedStoreSold (.sale okBill) (by decide) (by decide)⟩

/-- C4 counterexample: the claim quantifies over every referenced sku, but the
empty sku — reachable, as the first two conjuncts show, via the whitespace-sku
validation gap of `add_product` followed by a sale — hits the
`if not sku` guard of `remove_product` first and fails with the validation
error, not the referential-integrity error. -/
theorem C4_counterexample :
    add_product ⟨[], [], [], 1⟩ " " "Ghost" 1 1 = .ok ghostStore ∧
    process_sale ghostStore [⟨"", "Ghost", 1, 1⟩] = .ok (ghostStoreSold, 1) ∧
    fkOk ghostStoreSold ∧
    (∃ it ∈ ghostStoreSold.items, it.product_sku = "") ∧
    remove_product ghostStoreSold "" = .error .validationError ∧
    remove_product ghostStoreSold "" ≠ .error (.refIntegrityError "") := by
  decide

/-- C4 (amended): for every NON-EMPTY sku referenced by at least one line item,
`remove_product` fails with the referential-integrity error and — the error
result carrying no store — the product row remains; for the empty sku the
call fails with the validation error before the reference check.  The
`fkOk` hypothesis (every line item's sku has a product row) is the
foreign-key invariant every reachable store satisfies (`applyOp_fk`). -/
theorem C4_remove_referenced_nonempty_sku_fails (st : Store) (sku : String)
    (hne : sku ≠ "") (hfk : fkOk st)
    (href : ∃ it ∈ st.items, it.product_sku = sku) :
    remove_product st sku = .error (.refIntegrityError sku) := by
  obtain ⟨it, hit, hsku⟩ := href
  have hex : existsSku st.products sku = true := hsku ▸ hfk it hit
  obtain ⟨p, hfind⟩ := exists_find?_of_existsSku _ _ hex
  unfold remove_product
  rw [if_neg hne, hfind]
  show (if (st.items.any fun x => x.product_sku == sku) = true then
      (.error (.refIntegrityError sku) : Except StoreError Store)
    else .ok { st with products := st.products.filter (fun p => p.sku != sku) }) = _
  rw [if_pos (List.any_eq_true.mpr ⟨it, hit, by simp [hsku]⟩)]

/-- C4 witness: removing a sold product is refused. -/
theorem C4_witness :
    ("SKU1" : String) ≠ "" ∧ fkOk referencedStore ∧
    (∃ it ∈ referencedStore.items, it.product_sku = "SKU1") ∧
    remove_product referencedStore "SKU1" = .error (.refIntegrityError "SKU1") :=
  ⟨by decide, by decide, by decide,
    C4_remove_referenced_nonempty_sku_fails referencedStore "SKU1"
      (by decide) (by decide) (by decide)⟩

/-- C5: evaluating `remove_product` at a missing sku.  The claim says the
call fails with the not-found error; the code builds that error but its
blanket `except Exception` handler re-raises it as the generic
`RuntimeError` — the storage error — which is what the caller observes. -/
theorem C5_remove_missing_sku_storage_error :
    remove_product stockedStore "NOPE" = .error (.storageError .notFoundError) := by
  decide

/-- C6: evaluating `get_transaction_details`.  At a missing transaction id the
claim says not-found, but as in C5 the not-found error is re-wrapped into the
generic storage error by the `except Exception` handler.  At an existing id
the call does return the summary and the line items, each joined with the
product's currently stored name next to the snapshotted price and
quantity. -/
theorem C6_detail_eval :
    get_transaction_details stockedStore 7 = .error (.storageError .notFoundError) ∧
    get_transaction_details referencedStore 1 = .ok (⟨1, 6⟩, [(3, "Widget", "SKU1", 2)]) :=
  ⟨rfl, rfl⟩

/-- C7 counterexample: `process_sale` accepts a bill with a negative unit
price and a zero quantity — it validates neither — so a successful checkout
can create a line item with non-positive `quantity_sold`, one with negative
`price_at_sale`, and a transaction with negative `total_amount`. -/
theorem C7_counterexample :
    process_sale stockedStore badBill = .ok (badBillStore, 1) ∧
    ¬(∀ it ∈ badBillStore.items, 0 < it.quantity_sold ∧ 0 ≤ it.price_at_sale) ∧
    ¬(∀ t ∈ badBillStore.transactions, 0 ≤ t.total_amount) := by
  decide

/-- C7 (amended): after a successful checkout of a bill whose entries all have
positive `quantity_sold` and non-negative `price_at_sale` — properties
checkout itself does not validate — every line-item row it created has
positive `quantity_sold` and non-negative `price_at_sale`, and every
transaction row it created has non-negative `total_amount`. -/
theorem C7_created_rows_wellformed (st : Store) (bill : List BillItem)
    (st' : Store) (tid : Nat)
    (hpos : ∀ it ∈ bill, 0 < it.quantity_sold ∧ 0 ≤ it.price_at_sale)
    (h : process_sale st bill = .ok (st', tid)) :
    (∀ it ∈ st'.items.drop st.items.length,
      0 < it.quantity_sold ∧ 0 ≤ it.price_at_sale) ∧
    (∀ t ∈ st'.transactions.drop st.transactions.length, 0 ≤ t.total_amount) := by
  obtain ⟨htid, hsell⟩ := process_sale_ok_elim st bill st' tid h
  obtain ⟨hitems, htr, -⟩ := sellItems_ok_shape st.nextTxnId bill (saleInter st bill) st' hsell
  have hitems' : st'.items = st.items ++ bill.map (itemRow st.nextTxnId) := hitems
  have htr' : st'.transactions =
      st.transactions ++ [⟨st.nextTxnId, billTotal bill⟩] := htr
  constructor
  · intro it hit
    rw [hitems', List.drop_left] at hit
    obtain ⟨b, hb, rfl⟩ := List.mem_map.mp hit
    exact ⟨(hpos b hb).1, (hpos b hb).2⟩
  · intro t ht
    rw [htr', List.drop_left] at ht
    obtain rfl : t = ⟨st.nextTxnId, billTotal bill⟩ := by simpa using ht
    exact billTotal_nonneg bill fun x hx => ⟨(hpos x hx).2, le_of_lt (hpos x hx).1⟩

/-- C7 witness: a well-formed bill produces well-formed rows. -/
theorem C7_witness :
    (∀ it ∈ okBill, 0 < it.quantity_sold ∧ 0 ≤ it.price_at_sale) ∧
    process_sale stockedStore okBill = .ok (stockedStoreSold, 1) ∧
    ((∀ it ∈ stockedStoreSold.items.drop stockedStore.items.length,
        0 < it.quantity_sold ∧ 0 ≤ it.price_at_sale) ∧
      (∀ t ∈ stockedStoreSold.transactions.drop stockedStore.transactions.length,
        0 ≤ t.total_amount)) :=
  ⟨by decide, by decide,
    C7_created_rows_wellformed stockedStore okBill stockedStoreSold 1
      (by decide) (by decide)⟩

/-- C8 counterexample: a whitespace-only sku is empty after normalization
(`pyStrip " " = ""`), so the claim demands a validation error; but
`add_product` tests emptiness on the raw input (`if not sku`), accepts the
call and inserts a row whose stored sku is the empty string. -/
theorem C8_counterexample :
    pyStrip " " = "" ∧
    add_product ⟨[], [], [], 1⟩ " " "Widget" 1 1 =
      .ok ⟨[⟨"", "Widget", 1, 1⟩], [], [], 1⟩ := by
  decide

/-- C8 (amended): `add_product` fails with the validation error exactly when
the RAW `sku` or `name` is the empty string, or `price < 0`, or
`quantity < 0`; inputs that are merely whitespace pass the emptiness test and
are stored trimmed (possibly empty). -/
theorem C8_validation_checks_raw_inputs (st : Store) (sku name : String)
    (price quantity : Int) :
    add_product st sku name price quantity = .error .validationError ↔
      sku = "" ∨ name = "" ∨ price < 0 ∨ quantity < 0 := by
  unfold add_product
  by_cases h1 : sku = "" ∨ name = ""
  · rw [if_pos h1]
    exact iff_of_true rfl (by tauto)
  · rw [if_neg h1]
    by_cases h2 : price < 0 ∨ quantity < 0
    · rw [if_pos h2]
      exact iff_of_true rfl (by tauto)
    · rw [if_neg h2]
      by_cases h3 : existsSku st.products (pyUpper (pyStrip sku)) = true
      · rw [if_pos h3]
        exact iff_of_false (by simp) (by tauto)
      · rw [if_neg h3]
        exact iff_of_false (by simp) (by tauto)

/-- C9 counterexample: `add_product` stores the upper-cased sku, but
`get_product_details` queries by exact match on the RAW sku, so
`addProduct "abc" ...` followed by `getProduct "abc"` finds nothing — the
claim's round trip fails whenever normalization changes the sku. -/
theorem C9_counterexample :
    add_product ⟨[], [], [], 1⟩ "abc" "Widget" 1 2 =
      .ok ⟨[⟨"ABC", "Widget", 1, 2⟩], [], [], 1⟩ ∧
    get_product_details ⟨[⟨"ABC", "Widget", 1, 2⟩], [], [], 1⟩ "abc" = none := by
  decide

/-- C9 (amended): after a successful `add_product`, `get_product_details` on
the NORMALIZED sku (trimmed, upper-cased) returns the stored row: normalized
sku, trimmed name, and the given price and quantity.  For raw inputs already
in normalized form this is the claim's round trip; otherwise the lookup on
the raw sku misses (see the counterexample). -/
theorem C9_add_then_get_normalized_sku (st st' : Store) (sku name : String)
    (price quantity : Int)
    (h : add_product st sku name price quantity = .ok st') :
    get_product_details st' (pyUpper (pyStrip sku)) =
      some ⟨pyUpper (pyStrip sku), pyStrip name, price, quantity⟩ := by
  obtain ⟨-, -, h3, rfl⟩ := add_product_ok_elim st sku name price quantity st' h
  have hnone : st.products.find? (fun p => p.sku == pyUpper (pyStrip sku)) = none :=
    find?_eq_none_of_not_existsSku _ _ (by simpa using h3)
  show (st.products ++
    [(⟨pyUpper (pyStrip sku), pyStrip name, price, quantity⟩ : Product)]).find?
      (fun p => p.sku == pyUpper (pyStrip sku)) = _
  rw [find?_append_eq _ _ _ hnone]
  rw [List.find?_cons_of_pos _ (by simp)]

/-- C9 witness: an un-normalized add followed by a lookup on the normalized
sku. -/
theorem C9_witness :
    add_product ⟨[], [], [], 1⟩ " ab " " W " 2 3 = .ok abStore ∧
    get_product_details abStore (pyUpper (pyStrip " ab ")) =
      some ⟨pyUpper (pyStrip " ab "), pyStrip " W ", 2, 3⟩ :=
  ⟨by decide,
    C9_add_then_get_normalized_sku ⟨[], [], [], 1⟩ abStore " ab " " W " 2 3 (by decide)⟩

/-- C10: a non-empty bill containing an entry whose sku matches no product
fails with the insufficient-stock error (the loop treats the missing row as
zero stock — `if not current_stock or ...` — rather than raising a distinct
not-found error), and as in C1 the `.error` result carries no store, so the
full rollback leaves the store unchanged. -/
theorem C10_missing_product_reported_as_insufficient (st : Store) (bill : List BillItem)
    (hne : bill ≠ [])
    (h : ∃ it ∈ bill, existsSku st.products it.sku = false) :
    ∃ s, process_sale st bill = .error (.insufficientStockError s) := by
  have hne' : ¬bill.isEmpty = true := by simpa using hne
  obtain ⟨s, hs⟩ := sellItems_missing st.nextTxnId bill (saleInter st bill) h
  exact ⟨s, by rw [process_sale_eq_of_ne_nil st bill hne', hs]⟩

/-- C10 witness: second bill entry names an unknown sku. -/
theorem C10_witness :
    missingSkuBill ≠ [] ∧
    (∃ it ∈ missingSkuBill, existsSku stockedStore.products it.sku = false) ∧
    ∃ s, process_sale stockedStore missingSkuBill = .error (.insufficientStockError s) :=
  ⟨by decide, by decide,
    C10_missing_product_reported_as_insufficient stockedStore missingSkuBill
      (by decide) (by decide)⟩

end StoreManager
